import Mathlib

/-!
Shallow embedding of `src/tangent.ts` (Tangent – Word to JPG converter).

The program is an orchestrator around external subprocesses.  We embed its
pure logic directly (argument parsing, file collection, output collection,
result construction) and model the outside world — outcomes of the external
tool invocations (`spawnSync` statuses and captured output), the directory
listings the program reads, and the filesystem entries it creates/removes —
as explicit inputs (`ConvEnv`, `World`) and explicit state (`FSState`).

JavaScript specifics are modelled faithfully where the code depends on them:
`x || y` on strings (falsy empty string), `parseInt(_, 10)` prefix parsing
returning NaN (modelled as `none`), `spawnSync` statuses `number | null`
(modelled as `Option Int`, `null` = `none`), `Array.prototype.sort()` of
strings (lexicographic by code unit; modelled as an insertion sort by a
structural lexicographic comparator), reading `args[i]` past the end of the
argument array (`undefined`, which makes `path.resolve`/`String.match` throw
a TypeError that is caught by `main().catch`, i.e. exit code 1).
-/

namespace Tangent

/-- Lexicographic `≤` on char lists by structural recursion (the order used
by JavaScript `Array.prototype.sort()` on strings, restricted to the code
points appearing here). -/
def charsLe : List Char → List Char → Bool
  | [], _ => true
  | _ :: _, [] => false
  | a :: as, b :: bs => if a < b then true else if b < a then false else charsLe as bs

/-- Lexicographic order on strings, via `charsLe`. -/
def strLe (a b : String) : Prop := charsLe a.data b.data = true

instance strLeDec : DecidableRel strLe := fun a b => by unfold strLe; infer_instance

/-- Model of JavaScript `Array.prototype.sort()` on an array of strings:
sorting by the default (lexicographic) string comparison. -/
def jsSortStrings (l : List String) : List String := List.insertionSort strLe l

/-- `suf.data.isSuffixOf s.data`: model of JavaScript `String.endsWith`. -/
def strEndsWith (s suf : String) : Bool := suf.data.isSuffixOf s.data

/-- Does the string start with `'-'`?  Model of `args[i].startsWith("-")`. -/
def startsWithDash (s : String) : Bool :=
  match s.data with
  | '-' :: _ => true
  | _ => false

/-- Does the string start with `'/'` (an absolute POSIX path)? -/
def startsWithSlash (s : String) : Bool :=
  match s.data with
  | '/' :: _ => true
  | _ => false

/-- Model of `path.join(d, f)` for a directory and a plain entry name. -/
def joinPath (d f : String) : String := d ++ "/" ++ f

/-- Model of `path.resolve(p)` relative to the working directory `cwd`
(normalisation of `.`/`..` segments is not modelled; no claim depends on it). -/
def resolvePath (cwd p : String) : String :=
  if startsWithSlash p = true then p else joinPath cwd p

/-- Split a char list at `'/'` separators. -/
def splitSlash : List Char → List (List Char)
  | [] => [[]]
  | c :: cs =>
    let r := splitSlash cs
    if c = '/' then [] :: r
    else
      match r with
      | [] => [[c]]
      | g :: gs => (c :: g) :: gs

/-- Model of `path.basename(p)`: the last nonempty `/`-separated component. -/
def lastComponent (p : String) : String :=
  ⟨((splitSlash p.data).filter (fun g => g ≠ [])).getLastD p.data⟩

/-- Model of `path.extname` applied to an entry name: the suffix starting at
the last `'.'`, empty when there is no `'.'` or the last `'.'` is the first
character. -/
def jsExtname (name : String) : String :=
  let cs := name.data
  let tailPart := cs.reverse.takeWhile (fun c => c ≠ '.')
  if tailPart.length = cs.length then ""
  else if cs.length - tailPart.length - 1 = 0 then ""
  else ⟨'.' :: tailPart.reverse⟩

/-- Model of `String.prototype.toLowerCase` (ASCII letters; the extensions
compared here are ASCII). -/
def toLowerStr (s : String) : String := ⟨s.data.map Char.toLower⟩

/-- `path.basename(filePath, path.extname(filePath))`: the document's base
name with its extension stripped (the extension is stripped only when it is
nonempty and shorter than the whole name, as in Node). -/
def docBase (filePath : String) : String :=
  let base := lastComponent filePath
  let ext := jsExtname base
  if ext ≠ "" ∧ strEndsWith base ext = true ∧ base ≠ ext then
    ⟨base.data.take (base.data.length - ext.data.length)⟩
  else base

/-- `extensions.includes(path.extname(name).toLowerCase())` with
`extensions = [".docx", ".dotm"]`. -/
def wordExtOk (name : String) : Bool :=
  ([".docx", ".dotm"] : List String).contains (toLowerStr (jsExtname name))

/-- Model of JavaScript `x || y` on strings: the empty string is falsy. -/
def strOr (a b : String) : String := if a = "" then b else a

/-- Value of a decimal digit string. -/
def natOfDigits (cs : List Char) : Nat :=
  cs.foldl (fun n c => 10 * n + (c.toNat - 48)) 0

/-- Model of `parseInt(s, 10)`: optional leading whitespace and sign, then a
maximal run of decimal digits; `none` models `NaN` (no digits, or the
argument array read past its end). -/
def jsParseInt (s : String) : Option Int :=
  let cs := s.data.dropWhile Char.isWhitespace
  match cs with
  | '-' :: rest =>
    let ds := rest.takeWhile Char.isDigit
    if ds.isEmpty then none else some (-(natOfDigits ds : Int))
  | '+' :: rest =>
    let ds := rest.takeWhile Char.isDigit
    if ds.isEmpty then none else some (natOfDigits ds : Int)
  | _ =>
    let ds := cs.takeWhile Char.isDigit
    if ds.isEmpty then none else some (natOfDigits ds : Int)

/-- The resize target parsed from `--resize`. -/
structure ResizeSpec where
  width : Nat
  height : Nat
deriving DecidableEq, Repr

/-- Is `c` one of the separators accepted by the regex `[x×]` under the `i`
flag? -/
def resizeSep (c : Char) : Bool := c = 'x' ∨ c = 'X' ∨ c = '×'

/-- Model of `raw.match(/^(\d+)[x×](\d+)$/i)` followed by
`parseInt(match[1], 10)` / `parseInt(match[2], 10)`:  a maximal run of
digits, one separator, and a nonempty run of digits filling the rest of the
string.  (`\d` is ASCII `[0-9]`; the regex is anchored at both ends.) -/
def parseResize (s : String) : Option ResizeSpec :=
  let cs := s.data
  let d1 := cs.takeWhile Char.isDigit
  match cs.dropWhile Char.isDigit with
  | [] => none
  | c :: d2 =>
    if resizeSep c = true ∧ d1 ≠ [] ∧ d2 ≠ [] ∧ d2.all Char.isDigit = true then
      some ⟨natOfDigits d1, natOfDigits d2⟩
    else none

/-- The configuration produced by `parseArgs` (the `Config` interface).
`dpi` and `quality` are `Option Int` because `parseInt` can produce `NaN`
(modelled as `none`). -/
structure Config where
  inputPath : String
  outputDir : String
  dpi : Option Int
  quality : Option Int
  resize : Option ResizeSpec
  recursive : Bool
deriving DecidableEq, Repr

/-- The initial `config` literal of `parseArgs`. -/
def defaultConfig (cwd : String) : Config :=
  { inputPath := cwd
    outputDir := joinPath cwd "output"
    dpi := some 150
    quality := some 90
    resize := none
    recursive := false }

/-- Possible outcomes of `parseArgs`: a returned configuration, the help
short-circuit (`process.exit(0)`), the malformed-resize fatal error
(`process.exit(1)`), or an uncaught TypeError from reading a flag value past
the end of `argv` (`path.resolve(undefined)` / `undefined.match`), which the
`main().catch` handler turns into exit code 1. -/
inductive ParseResult where
  | helpExit
  | resizeFatal
  | argCrash
  | done (config : Config)
deriving DecidableEq, Repr

/-- The recognised option tokens of the `switch` statement. -/
def recognizedFlag (s : String) : Bool :=
  (["-h", "--help", "-i", "--input", "-o", "--output", "-d", "--dpi",
    "-q", "--quality", "-s", "--resize", "-r", "--recursive"] : List String).contains s

/-- The `for` loop of `parseArgs`, one token at a time.  Value-taking flags
consume `args[++i]`; when that read falls past the end of the array the
consequences differ: `-i`/`-o`/`-s` throw (crash), `-d`/`-q` store `NaN`.
A token matching no `case` is treated as a positional input path only when
it does not start with `"-"`; otherwise it is silently ignored. -/
def parseArgsLoop (cwd : String) (config : Config) : List String → ParseResult
  | [] => .done config
  | arg :: rest =>
    if arg = "-h" ∨ arg = "--help" then .helpExit
    else if arg = "-i" ∨ arg = "--input" then
      match rest with
      | [] => .argCrash
      | v :: rest2 => parseArgsLoop cwd { config with inputPath := resolvePath cwd v } rest2
    else if arg = "-o" ∨ arg = "--output" then
      match rest with
      | [] => .argCrash
      | v :: rest2 => parseArgsLoop cwd { config with outputDir := resolvePath cwd v } rest2
    else if arg = "-d" ∨ arg = "--dpi" then
      match rest with
      | [] => .done { config with dpi := none }
      | v :: rest2 => parseArgsLoop cwd { config with dpi := jsParseInt v } rest2
    else if arg = "-q" ∨ arg = "--quality" then
      match rest with
      | [] => .done { config with quality := none }
      | v :: rest2 => parseArgsLoop cwd { config with quality := jsParseInt v } rest2
    else if arg = "-s" ∨ arg = "--resize" then
      match rest with
      | [] => .argCrash
      | v :: rest2 =>
        match parseResize v with
        | none => .resizeFatal
        | some r => parseArgsLoop cwd { config with resize := some r } rest2
    else if arg = "-r" ∨ arg = "--recursive" then
      parseArgsLoop cwd { config with recursive := true } rest
    else if startsWithDash arg = true then parseArgsLoop cwd config rest
    else parseArgsLoop cwd { config with inputPath := resolvePath cwd arg } rest

/-- `parseArgs`: run the loop from the defaults. -/
def parseArgs (cwd : String) (argv : List String) : ParseResult :=
  parseArgsLoop cwd (defaultConfig cwd) argv

/-- A directory entry as seen by `fs.readdirSync(dir, { withFileTypes: true })`:
a regular file or a subdirectory with its own entries. -/
inductive FSEntry where
  | file (name : String)
  | dir (name : String) (entries : List FSEntry)

/-- The `scanDir` closure of `collectWordFiles`, applied to a directory's
entries: files with an allow-listed extension are collected in entry order;
subdirectories are descended into only when `recursive` is set (a
subdirectory entry is neither a file nor descended into otherwise). -/
def scanList (recursive : Bool) : String → List FSEntry → List String
  | _, [] => []
  | dirPath, .file name :: es =>
    (if wordExtOk name = true then [joinPath dirPath name] else []) ++
      scanList recursive dirPath es
  | dirPath, .dir name sub :: es =>
    (if recursive = true then scanList recursive (joinPath dirPath name) sub else []) ++
      scanList recursive dirPath es

/-- What `fs.statSync` reports for a path: a regular file, or a directory
together with the entries `readdirSync` yields for it. -/
inductive FSNode where
  | file
  | dir (entries : List FSEntry)

/-- Specification-side description (for comparison with `scanList`): the
eligible files among a directory's immediate entries, in entry order. -/
def topLevelEligible (dirPath : String) (entries : List FSEntry) : List String :=
  entries.filterMap fun e =>
    match e with
    | .file name => if wordExtOk name = true then some (joinPath dirPath name) else none
    | .dir _ _ => none

/-- Specification-side description: all eligible files anywhere in the tree
rooted at a directory's entries, in depth-first entry order. -/
def allEligible (dirPath : String) : List FSEntry → List String
  | [] => []
  | .file name :: es =>
    (if wordExtOk name = true then [joinPath dirPath name] else []) ++ allEligible dirPath es
  | .dir name sub :: es => allEligible (joinPath dirPath name) sub ++ allEligible dirPath es

/-- Specification-side description: the eligible files lying strictly inside
nested subdirectories (below the top level). -/
def subdirEligible (dirPath : String) : List FSEntry → List String
  | [] => []
  | .file _ :: es => subdirEligible dirPath es
  | .dir name sub :: es => allEligible (joinPath dirPath name) sub ++ subdirEligible dirPath es

/-- Specification-side predicate, written from the claim's words: is `s` of
the form `<positive-int>` separator `<positive-int>`, where the separator is
`x`/`X`/`×` and a positive int is a digit string denoting a value greater
than zero? -/
def posResizeForm (s : String) : Bool :=
  let d1 := s.data.takeWhile Char.isDigit
  match s.data.dropWhile Char.isDigit with
  | [] => false
  | c :: d2 =>
    resizeSep c && !d1.isEmpty && !d2.isEmpty && d2.all Char.isDigit &&
      decide (0 < natOfDigits d1) && decide (0 < natOfDigits d2)

/-- The `ConversionResult` interface. -/
structure ConversionResult where
  source : String
  pages : Nat
  outputFiles : List String
  error : Option String
deriving DecidableEq, Repr

/-- Outcomes of the external-tool invocations and directory reads performed
by one `convertFile` call.  A `spawnSync` status is `number | null`
(`Option Int`, `none` = `null`, i.e. the spawn itself failed).

* `tmpPdfs` — the `.pdf`-filtered listing of the scratch directory after the
  LibreOffice invocation (what `readdirSync(tmpDir).filter(endsWith ".pdf")`
  yields, in directory order);
* `pdfinfoPages` — the page count extracted by `/Pages:\s+(\d+)/` from the
  `pdfinfo` stdout, when the regex matches;
* `jpgListing` — the listing of the per-document output directory after the
  `pdftoppm` invocation (what `readdirSync(fileOutputDir)` yields);
* `resizeStatus`/`resizeStderr`/`resizeStdout` — outcome of the ImageMagick
  `convert` invocation on each individual JPG file. -/
structure ConvEnv where
  libreStatus : Option Int
  libreStderr : String
  libreStdout : String
  tmpPdfs : List String
  pdfinfoStatus : Option Int
  pdfinfoPages : Option Nat
  pdftoppmStatus : Option Int
  pdftoppmStderr : String
  pdftoppmStdout : String
  jpgListing : List String
  resizeStatus : String → Option Int
  resizeStderr : String → String
  resizeStdout : String → String

/-- Step 2 of `convertFile` (informational only): `pageCount` starts at 1 and
is replaced by the `pdfinfo` result when that call exits 0 and its stdout
matches `/Pages:\s+(\d+)/`.  The value feeds only the progress message. -/
def logPageCount (env : ConvEnv) : Nat :=
  if env.pdfinfoStatus = some 0 then
    match env.pdfinfoPages with
    | some n => n
    | none => 1
  else 1

/-- The collected outputs of `convertFile`:
`readdirSync(fileOutputDir).filter(f => f.endsWith(".jpg")).sort().map(f => path.join(fileOutputDir, f))`. -/
def collectedOutputs (env : ConvEnv) (fileOutputDir : String) : List String :=
  (jsSortStrings (env.jpgListing.filter (fun f => strEndsWith f ".jpg"))).map
    (fun f => joinPath fileOutputDir f)

/-- The `for (const jpgFile of outputFiles)` resize loop: the first `convert`
invocation whose status is not 0 throws; otherwise all files are processed. -/
def resizeLoop (env : ConvEnv) : List String → Except String Unit
  | [] => .ok ()
  | jpgFile :: rest =>
    if env.resizeStatus jpgFile ≠ some 0 then
      .error ("ImageMagick resize error: " ++
        strOr (env.resizeStderr jpgFile) (env.resizeStdout jpgFile))
    else resizeLoop env rest

/-- The `try` block of `convertFile`: LibreOffice conversion, locating the
PDF, rasterisation, output collection, optional resize.  `.error e` models a
thrown `new Error(e)`.  (The PDF located when the expected
`<basename>.pdf` is absent is the first entry of the `.pdf`-filtered
listing; it is used only as the rasteriser's input, which is part of the
unmodelled command line, so only the emptiness check is observable here.) -/
def convertBody (basename fileOutputDir : String) (resize : Option ResizeSpec)
    (env : ConvEnv) : Except String (List String) :=
  if env.libreStatus ≠ some 0 then
    .error ("LibreOffice error: " ++ strOr env.libreStderr env.libreStdout)
  else if ¬ (basename ++ ".pdf") ∈ env.tmpPdfs ∧ env.tmpPdfs = [] then
    .error "No PDF file found after LibreOffice conversion."
  else if env.pdftoppmStatus ≠ some 0 then
    .error ("pdftoppm error: " ++ strOr env.pdftoppmStderr env.pdftoppmStdout)
  else
    let outputFiles := collectedOutputs env fileOutputDir
    match resize with
    | some _ => (resizeLoop env outputFiles).map (fun _ => outputFiles)
    | none => .ok outputFiles

/-- `convertFile`: the `try`/`catch` around `convertBody`.  On success the
result carries the collected outputs and their count; any thrown error is
caught and becomes a result with zero pages, an empty output list and the
error message.  (`dpi` and `quality` are forwarded only into the external
command lines, which are not modelled.) -/
def convertFile (filePath outputDir : String) (dpi quality : Option Int)
    (resize : Option ResizeSpec) (env : ConvEnv) : ConversionResult :=
  let basename := docBase filePath
  let fileOutputDir := joinPath outputDir basename
  match convertBody basename fileOutputDir resize env with
  | .ok outputFiles =>
    { source := filePath, pages := outputFiles.length, outputFiles := outputFiles, error := none }
  | .error e =>
    { source := filePath, pages := 0, outputFiles := [], error := some e }

/-- The set of directories existing on disk, for the directory
creation/removal effects of `convertFile`. -/
structure FSState where
  dirs : List String
deriving DecidableEq, Repr

/-- `fs.mkdirSync(d, { recursive: true })`: idempotent creation. -/
def mkdirRecursive (d : String) (s : FSState) : FSState :=
  if d ∈ s.dirs then s else ⟨d :: s.dirs⟩

/-- `fs.rmSync(d, { recursive: true, force: true })`: removal that does not
fail when the target is absent. -/
def rmRecursiveForce (d : String) (s : FSState) : FSState :=
  ⟨s.dirs.filter (fun x => x ≠ d)⟩

/-- `convertFile` with its filesystem effects: the per-document output
subdirectory is created first, then the scratch directory (`mkdtempSync`,
whose fresh name is the parameter `tmpDir`), then the `try`/`catch`/`finally`
runs: the body either computes normally or — modelling an unexpected
exception `inject` — throws an `Error` whose message the `catch` clause
captures; the `finally` clause removes the scratch directory on every path. -/
def convertFileFS (filePath outputDir tmpDir : String) (dpi quality : Option Int)
    (resize : Option ResizeSpec) (env : ConvEnv) (inject : Option String)
    (s : FSState) : ConversionResult × FSState :=
  let basename := docBase filePath
  let fileOutputDir := joinPath outputDir basename
  let s1 := mkdirRecursive fileOutputDir s
  let s2 := mkdirRecursive tmpDir s1
  let result : ConversionResult :=
    match inject with
    | some m => { source := filePath, pages := 0, outputFiles := [], error := some m }
    | none => convertFile filePath outputDir dpi quality resize env
  (result, rmRecursiveForce tmpDir s2)

/-- The per-document loop of `main`.  A result whose `error` is truthy (a
nonempty string) is reported and counted; otherwise the success message
reads `result.outputFiles[0]`, which throws a TypeError when the list is
empty (`none` models that uncaught crash, which aborts the run).  The
returned list holds one result per processed document. -/
def runLoop (outputDir : String) (dpi quality : Option Int) (resize : Option ResizeSpec)
    (envOf : String → ConvEnv) : List String → Option (List ConversionResult)
  | [] => some []
  | f :: rest =>
    let r := convertFile f outputDir dpi quality resize (envOf f)
    if r.error.getD "" ≠ "" then
      (runLoop outputDir dpi quality resize envOf rest).map (fun rs => r :: rs)
    else if r.outputFiles = [] then none
    else (runLoop outputDir dpi quality resize envOf rest).map (fun rs => r :: rs)

/-- How each run ends; the exit code is paired with this tag in `mainRun`. -/
inductive RunOutcome where
  | helpShown
  | resizeFatal
  | argCrash
  | missingLibre
  | missingPdftoppm
  | missingConvert
  | inputMissing
  | badExtension
  | noFiles
  | loopCrash
  | completed
deriving DecidableEq, Repr

/-- The ambient environment of one run: the argument vector, the working
directory, what the dependency resolver finds (`libreOfficePath = ""` models
`resolveLibreOffice` finding nothing; the booleans model the `which` lookups
for `pdftoppm` and `convert`), the filesystem, and the external-tool
outcomes for each document passed to `convertFile`. -/
structure World where
  argv : List String
  cwd : String
  libreOfficePath : String
  pdftoppmFound : Bool
  convertFound : Bool
  fs : String → Option FSNode
  envOf : String → ConvEnv

/-- `main`: parse arguments, check dependencies, validate the input path,
collect the Word files, run the conversion loop, and exit.  Returns the
process exit code together with the outcome tag of the branch that produced
it.  Uncaught exceptions (flag value read past the end of `argv`; success
message on an empty output list) reach `main().catch`, which exits 1. -/
def mainRun (w : World) : Nat × RunOutcome :=
  match parseArgs w.cwd w.argv with
  | .helpExit => (0, .helpShown)
  | .resizeFatal => (1, .resizeFatal)
  | .argCrash => (1, .argCrash)
  | .done config =>
    if w.libreOfficePath = "" then (1, .missingLibre)
    else if w.pdftoppmFound = false then (1, .missingPdftoppm)
    else if config.resize.isSome = true ∧ w.convertFound = false then (1, .missingConvert)
    else
      match w.fs config.inputPath with
      | none => (1, .inputMissing)
      | some .file =>
        if wordExtOk (lastComponent config.inputPath) = true then
          match runLoop config.outputDir config.dpi config.quality config.resize
              w.envOf [config.inputPath] with
          | none => (1, .loopCrash)
          | some _ => (0, .completed)
        else (1, .badExtension)
      | some (.dir entries) =>
        let files := scanList config.recursive config.inputPath entries
        if files = [] then (0, .noFiles)
        else
          match runLoop config.outputDir config.dpi config.quality config.resize
              w.envOf files with
          | none => (1, .loopCrash)
          | some _ => (0, .completed)

/-- Fixture: an environment in which every external invocation succeeds and
two pages come out of the rasteriser. -/
def envAllOk : ConvEnv :=
  { libreStatus := some 0
    libreStderr := ""
    libreStdout := ""
    tmpPdfs := ["Report.pdf"]
    pdfinfoStatus := some 0
    pdfinfoPages := some 2
    pdftoppmStatus := some 0
    pdftoppmStderr := ""
    pdftoppmStdout := ""
    jpgListing := ["Report_page-2.jpg", "Report_page-1.jpg"]
    resizeStatus := fun _ => some 0
    resizeStderr := fun _ => ""
    resizeStdout := fun _ => "" }

/-- Fixture: an environment in which the LibreOffice invocation exits 1. -/
def envLibreFail : ConvEnv :=
  { envAllOk with libreStatus := some 1, libreStderr := "soffice failed", tmpPdfs := [] }

/-- Fixture: a run whose argument vector ends in a value-taking flag, with
every external tool present and an existing input directory holding one
eligible document. -/
def wArgCrash : World :=
  { argv := ["-i"]
    cwd := "/w"
    libreOfficePath := "/usr/bin/soffice"
    pdftoppmFound := true
    convertFound := true
    fs := fun p => if p = "/w" then some (.dir [.file "a.docx"]) else none
    envOf := fun _ => envAllOk }

/-- Fixture: a run whose argument vector carries a malformed resize value
before the help flag. -/
def wHelpLate : World :=
  { wArgCrash with argv := ["-s", "a", "-h"] }

/-- Fixture: a run whose argument vector starts with the help flag. -/
def wHelp : World :=
  { wArgCrash with argv := ["-h", "-i", "missing", "--bogus"] }

/-- Fixture: a run whose argument vector carries only a malformed resize
value. -/
def wResizeFatal : World :=
  { wArgCrash with argv := ["--resize", "abc"] }

theorem append_ne_empty {p : String} (t : String) (hp : p ≠ "") : p ++ t ≠ "" := by
  intro h
  apply hp
  have hd := congrArg String.data h
  rw [String.data_append] at hd
  exact String.ext (List.append_eq_nil.mp hd).1

theorem charsLe_cons (a b : Char) (as bs : List Char) :
    charsLe (a :: as) (b :: bs) =
      if a < b then true else if b < a then false else charsLe as bs := rfl

theorem charsLe_iff_lex (as bs : List Char) :
    charsLe as bs = true ↔ (List.Lex (· < ·) as bs ∨ as = bs) := by
  induction as generalizing bs with
  | nil =>
    cases bs with
    | nil => simp [charsLe]
    | cons b bs => simp [charsLe, List.Lex.nil]
  | cons a as ih =>
    cases bs with
    | nil =>
      simp only [charsLe, Bool.false_eq_true, false_iff]
      rintro (h | h)
      · exact List.Lex.not_nil_right _ _ h
      · exact List.noConfusion h
    | cons b bs =>
      rcases lt_trichotomy a b with hab | hab | hab
      · rw [charsLe_cons, if_pos hab]
        simp only [true_iff]
        exact Or.inl (List.Lex.rel hab)
      · subst hab
        have hirr : ¬ a < a := lt_irrefl a
        rw [charsLe_cons, if_neg hirr, if_neg hirr, ih]
        constructor
        · rintro (h | h)
          · exact Or.inl (List.Lex.cons h)
          · exact Or.inr (by rw [h])
        · rintro (h | h)
          · exact Or.inl (List.Lex.cons_iff.mp h)
          · exact Or.inr (by injection h)
      · have h1 : ¬ a < b := not_lt_of_gt hab
        rw [charsLe_cons, if_neg h1, if_pos hab]
        simp only [Bool.false_eq_true, false_iff]
        rintro (h | h)
        · cases h with
          | rel h' => exact h1 h'
          | cons h' => exact lt_irrefl a hab
        · injection h with h' _
          subst h'
          exact lt_irrefl a hab

theorem strLe_iff_le (a b : String) : strLe a b ↔ a ≤ b := by
  rw [strLe, charsLe_iff_lex, String.le_iff_toList_le, le_iff_lt_or_eq]
  constructor
  · rintro (h | h)
    · exact Or.inl h
    · exact Or.inr (by rw [String.toList, String.toList, h])
  · rintro (h | h)
    · exact Or.inl h
    · exact Or.inr (by rw [show a.data = a.toList from rfl, show b.data = b.toList from rfl, h])

theorem charsLe_append_left (p as bs : List Char) :
    charsLe (p ++ as) (p ++ bs) = charsLe as bs := by
  induction p with
  | nil => rfl
  | cons c p ih => simp [charsLe_cons, lt_irrefl, ih]

theorem joinPath_le_joinPath {d a b : String} (h : a ≤ b) : joinPath d a ≤ joinPath d b := by
  rw [← strLe_iff_le] at h ⊢
  rw [strLe] at h ⊢
  unfold joinPath
  simp only [String.data_append]
  rw [charsLe_append_left]
  exact h

theorem jsSortStrings_sorted (l : List String) :
    List.Sorted (fun a b : String => a ≤ b) (jsSortStrings l) := by
  have htot : IsTotal String strLe := ⟨fun a b => by
    rw [strLe_iff_le, strLe_iff_le]
    exact le_total a b⟩
  have htr : IsTrans String strLe := ⟨fun a b c hab hbc => by
    rw [strLe_iff_le] at hab hbc ⊢
    exact le_trans hab hbc⟩
  have hs : List.Sorted strLe (jsSortStrings l) :=
    @List.sorted_insertionSort String strLe strLeDec htot htr l
  exact hs.imp fun h => (strLe_iff_le _ _).mp h

theorem jsSortStrings_perm (l : List String) : (jsSortStrings l).Perm l :=
  List.perm_insertionSort strLe l

theorem resizeLoop_fails (env : ConvEnv) (files : List String)
    (h : ∃ f ∈ files, env.resizeStatus f ≠ some 0) :
    ∃ e, resizeLoop env files = .error e ∧ e ≠ "" := by
  induction files with
  | nil => simp at h
  | cons f rest ih =>
    by_cases hf : env.resizeStatus f = some 0
    · have hex : ∃ x ∈ rest, env.resizeStatus x ≠ some 0 := by
        rcases h with ⟨x, hx, hxs⟩
        rcases List.mem_cons.mp hx with rfl | hx'
        · exact absurd hf hxs
        · exact ⟨x, hx', hxs⟩
      rcases ih hex with ⟨e, he, hne⟩
      refine ⟨e, ?_, hne⟩
      simp [resizeLoop, hf, he]
    · refine ⟨"ImageMagick resize error: " ++ strOr (env.resizeStderr f) (env.resizeStdout f),
        ?_, append_ne_empty _ (by decide)⟩
      simp [resizeLoop, hf]

theorem resizeLoop_ok (env : ConvEnv) (files : List String)
    (h : ∀ f ∈ files, env.resizeStatus f = some 0) :
    resizeLoop env files = .ok () := by
  induction files with
  | nil => rfl
  | cons f rest ih =>
    have hf := h f (List.mem_cons_self f rest)
    simp [resizeLoop, hf]
    exact ih fun x hx => h x (List.mem_cons_of_mem f hx)

theorem convertBody_fails (basename fileOutputDir : String) (resize : Option ResizeSpec)
    (env : ConvEnv)
    (h : env.libreStatus ≠ some 0 ∨ env.tmpPdfs = [] ∨ env.pdftoppmStatus ≠ some 0 ∨
      (∃ rc, resize = some rc ∧
        ∃ f ∈ collectedOutputs env fileOutputDir, env.resizeStatus f ≠ some 0)) :
    ∃ e, convertBody basename fileOutputDir resize env = .error e ∧ e ≠ "" := by
  by_cases hl : env.libreStatus = some 0
  · by_cases hp : env.tmpPdfs = []
    · refine ⟨"No PDF file found after LibreOffice conversion.", ?_, by decide⟩
      have hmem : ¬ (basename ++ ".pdf") ∈ env.tmpPdfs := by simp [hp]
      simp [convertBody, hl, hmem, hp]
    · by_cases hr : env.pdftoppmStatus = some 0
      · rcases h with h | h | h | h
        · exact absurd hl h
        · exact absurd h hp
        · exact absurd hr h
        · rcases h with ⟨rc, rfl, hex⟩
          rcases resizeLoop_fails env _ hex with ⟨e, he, hne⟩
          refine ⟨e, ?_, hne⟩
          simp [convertBody, hl, hp, hr, he, Except.map]
      · refine ⟨"pdftoppm error: " ++ strOr env.pdftoppmStderr env.pdftoppmStdout,
          ?_, append_ne_empty _ (by decide)⟩
        simp [convertBody, hl, hp, hr]
  · refine ⟨"LibreOffice error: " ++ strOr env.libreStderr env.libreStdout,
      ?_, append_ne_empty _ (by decide)⟩
    simp [convertBody, hl]

theorem convertBody_ok (basename fileOutputDir : String) (resize : Option ResizeSpec)
    (env : ConvEnv) (hl : env.libreStatus = some 0) (hpdf : env.tmpPdfs ≠ [])
    (hr : env.pdftoppmStatus = some 0)
    (hres : resize = none ∨
      ∀ f ∈ collectedOutputs env fileOutputDir, env.resizeStatus f = some 0) :
    convertBody basename fileOutputDir resize env = .ok (collectedOutputs env fileOutputDir) := by
  rcases hres with rfl | hok
  · simp [convertBody, hl, hpdf, hr]
  · cases resize with
    | none => simp [convertBody, hl, hpdf, hr]
    | some rc => simp [convertBody, hl, hpdf, hr, resizeLoop_ok env _ hok, Except.map]

/-- C2: on every exit path of `convertFile` — success, any conversion
failure, or an unexpected exception (`inject`) — the uniquely-named scratch
directory created at the start of the conversion no longer exists when the
function returns. -/
theorem C2_scratch_dir_removed (filePath outputDir tmpDir : String)
    (dpi quality : Option Int) (resize : Option ResizeSpec) (env : ConvEnv)
    (inject : Option String) (s : FSState) :
    tmpDir ∉
      ((convertFileFS filePath outputDir tmpDir dpi quality resize env inject s).2).dirs := by
  simp [convertFileFS, rmRecursiveForce, List.mem_filter]

/-- C10: the per-document output subdirectory (the output directory joined
with the document's base name) is created before any conversion step runs,
so it exists on disk after `convertFile` returns on every path — including a
failed conversion whose result carries an error and an empty output list. -/
theorem C10_output_subdir_exists (filePath outputDir tmpDir : String)
    (dpi quality : Option Int) (resize : Option ResizeSpec) (env : ConvEnv)
    (inject : Option String) (s : FSState)
    (h : joinPath outputDir (docBase filePath) ≠ tmpDir) :
    joinPath outputDir (docBase filePath) ∈
      ((convertFileFS filePath outputDir tmpDir dpi quality resize env inject s).2).dirs := by
  have hself : ∀ (d : String) (t : FSState), d ∈ (mkdirRecursive d t).dirs := by
    intro d t
    unfold mkdirRecursive
    split
    · assumption
    · exact List.mem_cons_self _ _
  have hkeep : ∀ (x d : String) (t : FSState), x ∈ t.dirs → x ∈ (mkdirRecursive d t).dirs := by
    intro x d t hx
    unfold mkdirRecursive
    split
    · exact hx
    · exact List.mem_cons_of_mem _ hx
  have h2 : joinPath outputDir (docBase filePath) ∈
      (mkdirRecursive tmpDir (mkdirRecursive (joinPath outputDir (docBase filePath)) s)).dirs :=
    hkeep _ _ _ (hself _ s)
  simp only [convertFileFS, rmRecursiveForce, List.mem_filter]
  exact ⟨h2, by simpa using h⟩

/-- C10 witness: at a concrete failed conversion (an injected exception) the
output subdirectory `/out/Report` exists afterwards. -/
theorem C10_witness :
    joinPath "/out" (docBase "/in/Report.docx") ∈
      ((convertFileFS "/in/Report.docx" "/out" "/tmp/word2jpg-x1" (some 150) (some 90) none
        envLibreFail (some "boom") ⟨[]⟩).2).dirs :=
  C10_output_subdir_exists "/in/Report.docx" "/out" "/tmp/word2jpg-x1" (some 150) (some 90)
    none envLibreFail (some "boom") ⟨[]⟩ (by decide)

/-- C9: the page-count metadata lookup is informational only — the
`ConversionResult` returned by `convertFile` is identical across any two
runs that differ only in the `pdfinfo` outcome (its exit status and the page
count parsed from its output); that outcome feeds only `logPageCount`, the
number shown in the progress message. -/
theorem C9_pagecount_informational (filePath outputDir : String) (dpi quality : Option Int)
    (resize : Option ResizeSpec) (env : ConvEnv) (st : Option Int) (pg : Option Nat) :
    convertFile filePath outputDir dpi quality resize
        { env with pdfinfoStatus := st, pdfinfoPages := pg } =
      convertFile filePath outputDir dpi quality resize env := by
  have hrl : ∀ files, resizeLoop { env with pdfinfoStatus := st, pdfinfoPages := pg } files =
      resizeLoop env files := by
    intro files
    induction files with
    | nil => rfl
    | cons f rest ih => simp [resizeLoop, ih]
  simp [convertFile, convertBody, collectedOutputs, hrl]

/-- C5: collecting from a directory without the recursive flag returns
exactly the eligible top-level files (in entry order) and excludes eligible
files inside nested subdirectories; with the recursive flag it returns the
top-level eligible files together with all eligible files found in nested
subdirectories. -/
theorem C5_collection (dirPath : String) (entries : List FSEntry) :
    scanList false dirPath entries = topLevelEligible dirPath entries ∧
    (scanList true dirPath entries).Perm
      (topLevelEligible dirPath entries ++ subdirEligible dirPath entries) := by
  constructor
  · induction entries with
    | nil => simp [scanList, topLevelEligible]
    | cons e es ih =>
      cases e with
      | file name =>
        by_cases hw : wordExtOk name = true <;>
          simp [scanList, topLevelEligible, List.filterMap_cons, ih, hw]
      | dir name sub => simp [scanList, topLevelEligible, List.filterMap_cons, ih]
  · have hall : ∀ (d : String) (es : List FSEntry), scanList true d es = allEligible d es := by
      intro d es
      induction d, es using allEligible.induct with
      | case1 d => simp [scanList, allEligible]
      | case2 d name es ih => simp [scanList, allEligible, ih]
      | case3 d name sub es ih1 ih2 => simp [scanList, allEligible, ih1, ih2]
    rw [hall]
    induction entries with
    | nil => simp [allEligible, topLevelEligible, subdirEligible]
    | cons e es ih =>
      cases e with
      | file name =>
        have htop : topLevelEligible dirPath (FSEntry.file name :: es) =
            (if wordExtOk name = true then [joinPath dirPath name] else []) ++
              topLevelEligible dirPath es := by
          by_cases hw : wordExtOk name = true <;>
            simp [topLevelEligible, List.filterMap_cons, hw]
        have hsub : subdirEligible dirPath (FSEntry.file name :: es) =
            subdirEligible dirPath es := by simp [subdirEligible]
        have hae : allEligible dirPath (FSEntry.file name :: es) =
            (if wordExtOk name = true then [joinPath dirPath name] else []) ++
              allEligible dirPath es := by simp [allEligible]
        rw [htop, hsub, hae, List.append_assoc]
        exact List.Perm.append_left _ ih
      | dir name sub =>
        have htop : topLevelEligible dirPath (FSEntry.dir name sub :: es) =
            topLevelEligible dirPath es := by simp [topLevelEligible, List.filterMap_cons]
        have hsub : subdirEligible dirPath (FSEntry.dir name sub :: es) =
            allEligible (joinPath dirPath name) sub ++ subdirEligible dirPath es := by
          simp [subdirEligible]
        have hae : allEligible dirPath (FSEntry.dir name sub :: es) =
            allEligible (joinPath dirPath name) sub ++ allEligible dirPath es := by
          simp [allEligible]
        rw [htop, hsub, hae]
        have h1 := List.Perm.append_left (allEligible (joinPath dirPath name) sub) ih
        have h2 : ((allEligible (joinPath dirPath name) sub ++ topLevelEligible dirPath es) ++
            subdirEligible dirPath es).Perm
            ((topLevelEligible dirPath es ++ allEligible (joinPath dirPath name) sub) ++
              subdirEligible dirPath es) :=
          List.Perm.append_right _ List.perm_append_comm
        rw [List.append_assoc, List.append_assoc] at h2
        exact h1.trans h2

/-- C1: when any of pipeline steps 2–7 fails for a document (the LibreOffice
conversion does not exit 0, no PDF file is found in the scratch directory,
the rasteriser does not exit 0, or some per-file resize invocation does not
exit 0), `convertFile` returns a `ConversionResult` with zero pages, an
empty output list and a nonempty error string, and the per-document loop
continues with the remaining documents instead of aborting. -/
theorem C1_failure_isolated (filePath outputDir : String) (dpi quality : Option Int)
    (resize : Option ResizeSpec) (envOf : String → ConvEnv) (rest : List String)
    (h : (envOf filePath).libreStatus ≠ some 0 ∨ (envOf filePath).tmpPdfs = [] ∨
      (envOf filePath).pdftoppmStatus ≠ some 0 ∨
      (∃ rc, resize = some rc ∧
        ∃ f ∈ collectedOutputs (envOf filePath) (joinPath outputDir (docBase filePath)),
          (envOf filePath).resizeStatus f ≠ some 0)) :
    (convertFile filePath outputDir dpi quality resize (envOf filePath)).pages = 0 ∧
    (convertFile filePath outputDir dpi quality resize (envOf filePath)).outputFiles = [] ∧
    (∃ e, (convertFile filePath outputDir dpi quality resize (envOf filePath)).error = some e ∧
      e ≠ "") ∧
    runLoop outputDir dpi quality resize envOf (filePath :: rest) =
      (runLoop outputDir dpi quality resize envOf rest).map
        (fun rs => convertFile filePath outputDir dpi quality resize (envOf filePath) :: rs) := by
  obtain ⟨e, hbody, hne⟩ := convertBody_fails (docBase filePath)
    (joinPath outputDir (docBase filePath)) resize (envOf filePath) h
  have hcf : convertFile filePath outputDir dpi quality resize (envOf filePath) =
      { source := filePath, pages := 0, outputFiles := [], error := some e } := by
    simp [convertFile, hbody]
  refine ⟨by rw [hcf], by rw [hcf], ⟨e, by rw [hcf], hne⟩, ?_⟩
  simp [runLoop, hcf, hne]

/-- C1 witness: a document whose LibreOffice step exits 1, followed by one
further document in the loop. -/
theorem C1_witness :
    (convertFile "/in/Report.docx" "/out" (some 150) (some 90) none envLibreFail).pages = 0 ∧
    (convertFile "/in/Report.docx" "/out" (some 150) (some 90) none envLibreFail).outputFiles =
      [] ∧
    (∃ e, (convertFile "/in/Report.docx" "/out" (some 150) (some 90) none
      envLibreFail).error = some e ∧ e ≠ "") ∧
    runLoop "/out" (some 150) (some 90) none (fun _ => envLibreFail)
        ["/in/Report.docx", "/in/B.docx"] =
      (runLoop "/out" (some 150) (some 90) none (fun _ => envLibreFail) ["/in/B.docx"]).map
        (fun rs =>
          convertFile "/in/Report.docx" "/out" (some 150) (some 90) none envLibreFail :: rs) :=
  C1_failure_isolated "/in/Report.docx" "/out" (some 150) (some 90) none
    (fun _ => envLibreFail) ["/in/B.docx"] (Or.inl (by decide))

/-- C6: for a successful conversion, every output file lies in the
subdirectory of the output directory named exactly after the document's base
name (extension stripped), the output list is sorted lexicographically, and
the page count equals the number of collected `.jpg` files. -/
theorem C6_success_outputs (filePath outputDir : String) (dpi quality : Option Int)
    (resize : Option ResizeSpec) (env : ConvEnv)
    (hl : env.libreStatus = some 0) (hpdf : env.tmpPdfs ≠ [])
    (hr : env.pdftoppmStatus = some 0)
    (hres : resize = none ∨
      ∀ f ∈ collectedOutputs env (joinPath outputDir (docBase filePath)),
        env.resizeStatus f = some 0) :
    (convertFile filePath outputDir dpi quality resize env).error = none ∧
    (convertFile filePath outputDir dpi quality resize env).outputFiles =
      collectedOutputs env (joinPath outputDir (docBase filePath)) ∧
    (∀ f ∈ (convertFile filePath outputDir dpi quality resize env).outputFiles,
      ∃ name ∈ env.jpgListing, strEndsWith name ".jpg" = true ∧
        f = joinPath (joinPath outputDir (docBase filePath)) name) ∧
    List.Sorted (fun a b : String => a ≤ b)
      (convertFile filePath outputDir dpi quality resize env).outputFiles ∧
    (convertFile filePath outputDir dpi quality resize env).pages =
      (convertFile filePath outputDir dpi quality resize env).outputFiles.length ∧
    (convertFile filePath outputDir dpi quality resize env).pages =
      (env.jpgListing.filter (fun f => strEndsWith f ".jpg")).length := by
  have hbody := convertBody_ok (docBase filePath) (joinPath outputDir (docBase filePath))
    resize env hl hpdf hr hres
  have hcf : convertFile filePath outputDir dpi quality resize env =
      { source := filePath
        pages := (collectedOutputs env (joinPath outputDir (docBase filePath))).length
        outputFiles := collectedOutputs env (joinPath outputDir (docBase filePath))
        error := none } := by
    simp [convertFile, hbody]
  rw [hcf]
  refine ⟨rfl, rfl, ?_, ?_, rfl, ?_⟩
  · intro f hf
    simp only [collectedOutputs] at hf
    rcases List.mem_map.mp hf with ⟨name, hn, rfl⟩
    have hn' : name ∈ env.jpgListing.filter (fun x => strEndsWith x ".jpg") :=
      ((jsSortStrings_perm _).mem_iff).mp hn
    rcases List.mem_filter.mp hn' with ⟨hmem, hend⟩
    exact ⟨name, hmem, hend, rfl⟩
  · unfold collectedOutputs
    exact List.Pairwise.map _ (fun a b h => joinPath_le_joinPath h) (jsSortStrings_sorted _)
  · simp [collectedOutputs, List.length_map, (jsSortStrings_perm _).length_eq]

/-- C6 witness: a concrete successful conversion with two rasterised pages
listed out of order in the output directory. -/
theorem C6_witness :
    (convertFile "/in/Report.docx" "/out" (some 150) (some 90) none envAllOk).error = none ∧
    (convertFile "/in/Report.docx" "/out" (some 150) (some 90) none envAllOk).outputFiles =
      collectedOutputs envAllOk (joinPath "/out" (docBase "/in/Report.docx")) ∧
    (∀ f ∈ (convertFile "/in/Report.docx" "/out" (some 150) (some 90) none
        envAllOk).outputFiles,
      ∃ name ∈ envAllOk.jpgListing, strEndsWith name ".jpg" = true ∧
        f = joinPath (joinPath "/out" (docBase "/in/Report.docx")) name) ∧
    List.Sorted (fun a b : String => a ≤ b)
      (convertFile "/in/Report.docx" "/out" (some 150) (some 90) none envAllOk).outputFiles ∧
    (convertFile "/in/Report.docx" "/out" (some 150) (some 90) none envAllOk).pages =
      (convertFile "/in/Report.docx" "/out" (some 150) (some 90) none
        envAllOk).outputFiles.length ∧
    (convertFile "/in/Report.docx" "/out" (some 150) (some 90) none envAllOk).pages =
      (envAllOk.jpgListing.filter (fun f => strEndsWith f ".jpg")).length :=
  C6_success_outputs "/in/Report.docx" "/out" (some 150) (some 90) none envAllOk
    (by decide) (by decide) (by decide) (Or.inl rfl)

theorem takeWhile_all_append {p : Char → Bool} (l : List Char)
    (hall : ∀ x ∈ l, p x = true) (c : Char) (hc : p c = false) (r : List Char) :
    (l ++ c :: r).takeWhile p = l ∧ (l ++ c :: r).dropWhile p = c :: r := by
  induction l with
  | nil => simp [List.takeWhile_cons, List.dropWhile_cons, hc]
  | cons a l ih =>
    have ha : p a = true := hall a (List.mem_cons_self a l)
    have ih' := ih fun x hx => hall x (List.mem_cons_of_mem a hx)
    simp [List.takeWhile_cons, List.dropWhile_cons, ha, ih'.1, ih'.2]

theorem resizeSep_not_digit {c : Char} (hc : resizeSep c = true) : c.isDigit = false := by
  have hc' : c = 'x' ∨ c = 'X' ∨ c = '×' := by simpa [resizeSep] using hc
  rcases hc' with rfl | rfl | rfl <;> decide

theorem parseResize_of_form (d1 d2 : List Char) (c : Char) (h1 : d1 ≠ []) (h2 : d2 ≠ [])
    (ha1 : d1.all Char.isDigit = true) (ha2 : d2.all Char.isDigit = true)
    (hc : resizeSep c = true) :
    parseResize ⟨d1 ++ c :: d2⟩ = some ⟨natOfDigits d1, natOfDigits d2⟩ := by
  have hall1 : ∀ x ∈ d1, Char.isDigit x = true := by simpa [List.all_eq_true] using ha1
  obtain ⟨htw, hdw⟩ := takeWhile_all_append d1 hall1 c (resizeSep_not_digit hc) d2
  simp only [parseResize]
  rw [htw, hdw]
  simp [hc, h1, h2, ha2]

theorem parseResize_some_form (s : String) (wd ht : Nat)
    (hp : parseResize s = some ⟨wd, ht⟩) :
    ∃ d1 c d2, s.data = d1 ++ c :: d2 ∧ d1 ≠ [] ∧ d2 ≠ [] ∧
      d1.all Char.isDigit = true ∧ d2.all Char.isDigit = true ∧ resizeSep c = true ∧
      wd = natOfDigits d1 ∧ ht = natOfDigits d2 := by
  simp only [parseResize] at hp
  rcases hdw : s.data.dropWhile Char.isDigit with _ | ⟨c, d2⟩
  · rw [hdw] at hp
    dsimp only at hp
    exact absurd hp (by simp)
  · rw [hdw] at hp
    dsimp only at hp
    by_cases hcond : resizeSep c = true ∧ s.data.takeWhile Char.isDigit ≠ [] ∧ d2 ≠ [] ∧
        d2.all Char.isDigit = true
    · rw [if_pos hcond] at hp
      obtain ⟨hc, hne1, hne2, hall2⟩ := hcond
      simp only [Option.some.injEq, ResizeSpec.mk.injEq] at hp
      refine ⟨s.data.takeWhile Char.isDigit, c, d2, ?_, hne1, hne2, ?_, hall2, hc,
        hp.1.symm, hp.2.symm⟩
      · rw [← hdw, List.takeWhile_append_dropWhile]
      · rw [List.all_eq_true]
        exact fun x hx => List.mem_takeWhile_imp hx
    · rw [if_neg hcond] at hp
      exact absurd hp (by simp)

/-- C4 counterexample: the string `0x5` is not of the form
`<positive-int>` separator `<positive-int>` (its first value is zero), yet
parsing does not fail: it produces a configuration with a 0×5 resize
target. -/
theorem C4_counterexample :
    posResizeForm "0x5" = false ∧
    parseResize "0x5" = some ⟨0, 5⟩ ∧
    parseArgs "/w" ["-s", "0x5"] =
      .done { defaultConfig "/w" with resize := some ⟨0, 5⟩ } := by decide

/-- C4 (amended): the resize value is accepted exactly when it is a nonempty
ASCII digit string, one separator `x`/`X`/`×`, and a nonempty ASCII digit
string (zero values included); an accepted value yields the two base-10
values exactly, and every other string is a fatal parse error that makes the
process exit 1. -/
theorem C4_accepted_resize_values :
    (∀ (d1 d2 : List Char) (c : Char), d1 ≠ [] → d2 ≠ [] →
      d1.all Char.isDigit = true → d2.all Char.isDigit = true → resizeSep c = true →
      parseResize ⟨d1 ++ c :: d2⟩ = some ⟨natOfDigits d1, natOfDigits d2⟩) ∧
    (∀ (s : String) (wd ht : Nat), parseResize s = some ⟨wd, ht⟩ →
      ∃ d1 c d2, s.data = d1 ++ c :: d2 ∧ d1 ≠ [] ∧ d2 ≠ [] ∧
        d1.all Char.isDigit = true ∧ d2.all Char.isDigit = true ∧ resizeSep c = true ∧
        wd = natOfDigits d1 ∧ ht = natOfDigits d2) ∧
    (∀ (cwd : String) (config : Config) (v : String) (rest : List String),
      parseResize v = none → parseArgsLoop cwd config ("-s" :: v :: rest) = .resizeFatal) ∧
    (∀ w : World, parseArgs w.cwd w.argv = .resizeFatal → mainRun w = (1, .resizeFatal)) := by
  refine ⟨parseResize_of_form, parseResize_some_form, ?_, ?_⟩
  · intro cwd config v rest hv
    rw [parseArgsLoop.eq_def]
    simp [hv]
  · intro w h
    simp [mainRun, h]

/-- C4 witness: concrete instances of each part of the amended statement. -/
theorem C4_witness :
    parseResize ⟨['2'] ++ 'x' :: ['3']⟩ = some ⟨natOfDigits ['2'], natOfDigits ['3']⟩ ∧
    (∃ d1 c d2, ("24x35" : String).data = d1 ++ c :: d2 ∧ d1 ≠ [] ∧ d2 ≠ [] ∧
      d1.all Char.isDigit = true ∧ d2.all Char.isDigit = true ∧ resizeSep c = true ∧
      24 = natOfDigits d1 ∧ 35 = natOfDigits d2) ∧
    parseArgsLoop "/w" (defaultConfig "/w") ("-s" :: "abc" :: []) = .resizeFatal ∧
    mainRun wResizeFatal = (1, .resizeFatal) :=
  ⟨C4_accepted_resize_values.1 ['2'] ['3'] 'x' (by decide) (by decide) (by decide)
      (by decide) (by decide),
   C4_accepted_resize_values.2.1 "24x35" 24 35 (by decide),
   C4_accepted_resize_values.2.2.1 "/w" (defaultConfig "/w") "abc" [] (by decide),
   C4_accepted_resize_values.2.2.2 wResizeFatal (by decide)⟩

/-- C7 counterexample: an argument list containing the help flag after a
malformed resize value exits 1 (the malformed value wins), not 0. -/
theorem C7_counterexample :
    "-h" ∈ wHelpLate.argv ∧ (mainRun wHelpLate).1 = 1 ∧
    (mainRun wHelpLate).2 = .resizeFatal := by decide

/-- C7 (amended): when the argument loop reaches a help token (the token is
not consumed as the value of a preceding flag and no earlier token
terminated the process), the program prints usage and exits 0, ignoring all
arguments after the help token. -/
theorem C7_help_short_circuits :
    (∀ (cwd : String) (config : Config) (rest : List String),
      parseArgsLoop cwd config ("-h" :: rest) = .helpExit ∧
      parseArgsLoop cwd config ("--help" :: rest) = .helpExit) ∧
    (∀ w : World, parseArgs w.cwd w.argv = .helpExit → mainRun w = (0, .helpShown)) := by
  refine ⟨fun cwd config rest => ⟨?_, ?_⟩, fun w h => by simp [mainRun, h]⟩
  · rw [parseArgsLoop.eq_def]
    simp
  · rw [parseArgsLoop.eq_def]
    simp

/-- C7 witness: the help flag at the head of the argument list short-circuits
regardless of what follows, and such a run exits 0. -/
theorem C7_witness :
    parseArgsLoop "/w" (defaultConfig "/w") ("-h" :: ["-i", "x", "--bogus"]) = .helpExit ∧
    parseArgsLoop "/w" (defaultConfig "/w") ("--help" :: ["-s", "zz"]) = .helpExit ∧
    mainRun wHelp = (0, .helpShown) :=
  ⟨(C7_help_short_circuits.1 "/w" (defaultConfig "/w") ["-i", "x", "--bogus"]).1,
   (C7_help_short_circuits.1 "/w" (defaultConfig "/w") ["-s", "zz"]).2,
   C7_help_short_circuits.2 wHelp (by decide)⟩

theorem ne_of_recognized {t f : String} (ht : recognizedFlag t = false)
    (hf : recognizedFlag f = true) : t ≠ f := by
  intro he
  rw [he, hf] at ht
  exact Bool.noConfusion ht

theorem ne_of_dash_false {t f : String} (hd : startsWithDash t = false)
    (hf : startsWithDash f = true) : t ≠ f := by
  intro he
  rw [he, hf] at hd
  exact Bool.noConfusion hd

theorem parseArgsLoop_skip_unknown (cwd : String) (config : Config) (t : String)
    (rest : List String) (hd : startsWithDash t = true) (hf : recognizedFlag t = false) :
    parseArgsLoop cwd config (t :: rest) = parseArgsLoop cwd config rest := by
  have n1 : ¬(t = "-h" ∨ t = "--help") :=
    not_or.mpr ⟨ne_of_recognized hf (by decide), ne_of_recognized hf (by decide)⟩
  have n2 : ¬(t = "-i" ∨ t = "--input") :=
    not_or.mpr ⟨ne_of_recognized hf (by decide), ne_of_recognized hf (by decide)⟩
  have n3 : ¬(t = "-o" ∨ t = "--output") :=
    not_or.mpr ⟨ne_of_recognized hf (by decide), ne_of_recognized hf (by decide)⟩
  have n4 : ¬(t = "-d" ∨ t = "--dpi") :=
    not_or.mpr ⟨ne_of_recognized hf (by decide), ne_of_recognized hf (by decide)⟩
  have n5 : ¬(t = "-q" ∨ t = "--quality") :=
    not_or.mpr ⟨ne_of_recognized hf (by decide), ne_of_recognized hf (by decide)⟩
  have n6 : ¬(t = "-s" ∨ t = "--resize") :=
    not_or.mpr ⟨ne_of_recognized hf (by decide), ne_of_recognized hf (by decide)⟩
  have n7 : ¬(t = "-r" ∨ t = "--recursive") :=
    not_or.mpr ⟨ne_of_recognized hf (by decide), ne_of_recognized hf (by decide)⟩
  rw [parseArgsLoop.eq_def]
  dsimp only
  rw [if_neg n1, if_neg n2, if_neg n3, if_neg n4, if_neg n5, if_neg n6, if_neg n7, if_pos hd]

theorem parseArgsLoop_positional (cwd : String) (config : Config) (t : String)
    (rest : List String) (hd : startsWithDash t = false) :
    parseArgsLoop cwd config (t :: rest) =
      parseArgsLoop cwd { config with inputPath := resolvePath cwd t } rest := by
  have n1 : ¬(t = "-h" ∨ t = "--help") :=
    not_or.mpr ⟨ne_of_dash_false hd (by decide), ne_of_dash_false hd (by decide)⟩
  have n2 : ¬(t = "-i" ∨ t = "--input") :=
    not_or.mpr ⟨ne_of_dash_false hd (by decide), ne_of_dash_false hd (by decide)⟩
  have n3 : ¬(t = "-o" ∨ t = "--output") :=
    not_or.mpr ⟨ne_of_dash_false hd (by decide), ne_of_dash_false hd (by decide)⟩
  have n4 : ¬(t = "-d" ∨ t = "--dpi") :=
    not_or.mpr ⟨ne_of_dash_false hd (by decide), ne_of_dash_false hd (by decide)⟩
  have n5 : ¬(t = "-q" ∨ t = "--quality") :=
    not_or.mpr ⟨ne_of_dash_false hd (by decide), ne_of_dash_false hd (by decide)⟩
  have n6 : ¬(t = "-s" ∨ t = "--resize") :=
    not_or.mpr ⟨ne_of_dash_false hd (by decide), ne_of_dash_false hd (by decide)⟩
  have n7 : ¬(t = "-r" ∨ t = "--recursive") :=
    not_or.mpr ⟨ne_of_dash_false hd (by decide), ne_of_dash_false hd (by decide)⟩
  rw [parseArgsLoop.eq_def]
  dsimp only
  rw [if_neg n1, if_neg n2, if_neg n3, if_neg n4, if_neg n5, if_neg n6, if_neg n7,
    if_neg (by simp [hd])]

theorem parseArgsLoop_last_positional (cwd : String) (config : Config) (ts : List String)
    (t : String) (hts : ∀ x ∈ ts, startsWithDash x = false)
    (ht : startsWithDash t = false) :
    parseArgsLoop cwd config (ts ++ [t]) =
      .done { config with inputPath := resolvePath cwd t } := by
  induction ts generalizing config with
  | nil =>
    rw [List.nil_append, parseArgsLoop_positional cwd config t [] ht]
    rfl
  | cons x ts ih =>
    rw [List.cons_append,
      parseArgsLoop_positional cwd config x _ (hts x (List.mem_cons_self x ts))]
    exact ih _ fun y hy => hts y (List.mem_cons_of_mem x hy)

/-- C8 counterexample: the token `--bogus` is not recognised as a flag and is
not consumed as a flag value, yet it is silently ignored — the final input
path stays at its default instead of being overridden to the resolved
token. -/
theorem C8_counterexample :
    recognizedFlag "--bogus" = false ∧
    parseArgs "/w" ["--bogus"] = .done (defaultConfig "/w") ∧
    (defaultConfig "/w").inputPath ≠ resolvePath "/w" "--bogus" := by decide

/-- C8 (amended): a token that is not consumed as a flag value and does not
start with `-` overrides the configured input path (the last such token
determines the final input path); an unrecognised token that does start with
`-` is silently ignored. -/
theorem C8_positional_override :
    (∀ (cwd : String) (config : Config) (t : String) (rest : List String),
      startsWithDash t = true → recognizedFlag t = false →
      parseArgsLoop cwd config (t :: rest) = parseArgsLoop cwd config rest) ∧
    (∀ (cwd : String) (config : Config) (t : String) (rest : List String),
      startsWithDash t = false →
      parseArgsLoop cwd config (t :: rest) =
        parseArgsLoop cwd { config with inputPath := resolvePath cwd t } rest) ∧
    (∀ (cwd : String) (config : Config) (ts : List String) (t : String),
      (∀ x ∈ ts, startsWithDash x = false) → startsWithDash t = false →
      parseArgsLoop cwd config (ts ++ [t]) =
        .done { config with inputPath := resolvePath cwd t }) :=
  ⟨fun cwd config t rest hd hf => parseArgsLoop_skip_unknown cwd config t rest hd hf,
   fun cwd config t rest hd => parseArgsLoop_positional cwd config t rest hd,
   fun cwd config ts t hts ht => parseArgsLoop_last_positional cwd config ts t hts ht⟩

/-- C8 witness: concrete instances — an ignored unrecognised dash token, a
positional override, and two positionals where the last one wins. -/
theorem C8_witness :
    parseArgsLoop "/w" (defaultConfig "/w") ("--bogus" :: ["doc.docx"]) =
      parseArgsLoop "/w" (defaultConfig "/w") ["doc.docx"] ∧
    parseArgsLoop "/w" (defaultConfig "/w") ("a" :: []) =
      parseArgsLoop "/w" { defaultConfig "/w" with inputPath := resolvePath "/w" "a" } [] ∧
    parseArgsLoop "/w" (defaultConfig "/w") (["a", "b"] ++ ["c"]) =
      .done { defaultConfig "/w" with inputPath := resolvePath "/w" "c" } :=
  ⟨C8_positional_override.1 "/w" (defaultConfig "/w") "--bogus" ["doc.docx"] (by decide)
      (by decide),
   C8_positional_override.2.1 "/w" (defaultConfig "/w") "a" [] (by decide),
   C8_positional_override.2.2 "/w" (defaultConfig "/w") ["a", "b"] "c" (by decide)
      (by decide)⟩

theorem mainRun_cases (w : World) :
    mainRun w = (0, .helpShown) ∨ mainRun w = (1, .resizeFatal) ∨
    mainRun w = (1, .argCrash) ∨ mainRun w = (1, .missingLibre) ∨
    mainRun w = (1, .missingPdftoppm) ∨ mainRun w = (1, .missingConvert) ∨
    mainRun w = (1, .inputMissing) ∨ mainRun w = (1, .badExtension) ∨
    mainRun w = (0, .noFiles) ∨ mainRun w = (1, .loopCrash) ∨
    mainRun w = (0, .completed) := by
  unfold mainRun
  rcases hp : parseArgs w.cwd w.argv with _ | _ | _ | config
  · simp
  · simp
  · simp
  · by_cases h1 : w.libreOfficePath = ""
    · simp [h1]
    · by_cases h2 : w.pdftoppmFound = false
      · simp [h1, h2]
      · by_cases h3 : config.resize.isSome = true ∧ w.convertFound = false
        · simp [h1, h2, h3]
        · rcases hfs : w.fs config.inputPath with _ | nd
          · simp [h1, h2, h3, hfs]
          · cases nd with
            | file =>
              by_cases h4 : wordExtOk (lastComponent config.inputPath) = true
              · rcases hrl : runLoop config.outputDir config.dpi config.quality config.resize
                    w.envOf [config.inputPath] with _ | rs
                · simp [h1, h2, h3, hfs, h4, hrl]
                · simp [h1, h2, h3, hfs, h4, hrl]
              · simp [h1, h2, h3, hfs, h4]
            | dir entries =>
              by_cases h5 : scanList config.recursive config.inputPath entries = []
              · simp [h1, h2, h3, hfs, h5]
              · rcases hrl : runLoop config.outputDir config.dpi config.quality config.resize
                    w.envOf (scanList config.recursive config.inputPath entries) with _ | rs
                · simp [h1, h2, h3, hfs, h5, hrl]
                · simp [h1, h2, h3, hfs, h5, hrl]

/-- C3 counterexample: a run in which every external tool is present, the
input path exists as a directory of eligible documents, no resize flag
occurs at all, and yet the exit code is 1 — the argument vector ends in a
value-taking flag, whose missing value raises an uncaught TypeError. -/
theorem C3_counterexample :
    (mainRun wArgCrash).1 = 1 ∧ (mainRun wArgCrash).2 = .argCrash ∧
    wArgCrash.libreOfficePath ≠ "" ∧ wArgCrash.pdftoppmFound = true ∧
    wArgCrash.convertFound = true ∧ (wArgCrash.fs "/w").isSome = true ∧
    ("-s" ∉ wArgCrash.argv ∧ "--resize" ∉ wArgCrash.argv) ∧
    wordExtOk "a.docx" = true := by decide

/-- C3 (amended): the exit code is always 0 or 1, and it is 0 exactly when
the run ends with the help short-circuit, with no files found, or with the
per-document loop completing (even if documents failed); every other ending
— the pre-loop fatal conditions (missing tool, missing input path, malformed
resize value, disallowed extension) and the two uncaught-exception paths (a
value-taking flag as the final token; a conversion reported successful with
an empty output list) — exits 1. -/
theorem C3_exit_codes (w : World) :
    ((mainRun w).1 = 0 ∨ (mainRun w).1 = 1) ∧
    ((mainRun w).1 = 0 ↔
      ((mainRun w).2 = .helpShown ∨ (mainRun w).2 = .noFiles ∨
        (mainRun w).2 = .completed)) := by
  rcases mainRun_cases w with h | h | h | h | h | h | h | h | h | h | h <;> rw [h] <;>
    exact ⟨by simp, by simp⟩

end Tangent
